import Mathlib

/-!
Verification development for the gym/spa front-desk application core:
visit lifecycle state tracking (entry/exit decision engine, visit ledger,
occupancy), subscription eligibility, and statistics aggregation.

The definitions below are a shallow embedding of the JavaScript sources
(src/utils/dateUtils.js, src/utils/validators.js, src/services/dataService.js,
src/services/customerService.js, src/services/barcodeService.js,
src/services/visitorsService.js, src/services/statisticsService.js).

Modelling conventions:
- JavaScript timestamps (Date values) are integer epoch milliseconds (Int).
- A date-string input that may be absent or unparseable is a DateInput:
  missing models falsy inputs (null / undefined / empty string), valid t a
  parseable date with epoch value t, malformed a non-empty unparseable
  string (which JavaScript parses to an Invalid Date, i.e. NaN; every
  numeric comparison against NaN is false).
- The calendar-date partition key produced by toISOString().split(T)[0]
  is modelled as the epoch day index (jsDay); two timestamps yield the
  same ISO date string iff they yield the same day index. getHours is
  modelled in UTC (jsHour); the model fixes the timezone to UTC.
- Visit ids in the source are the strings visitNNN built from a
  monotonically increasing counter via zero padding; the map from the
  counter to the string is injective, so the model uses the counter value
  itself as the id.
-/

namespace Gym

/-- A date-valued input as it arrives from JSON / form data. -/
inductive DateInput
  | missing
  | valid (t : Int)
  | malformed
  deriving DecidableEq, Repr

/-- Milliseconds in one minute. -/
def msPerMinute : Int := 60000

/-- Milliseconds in one hour. -/
def msPerHour : Int := 3600000

/-- Milliseconds in one day. -/
def msPerDay : Int := 86400000

/-- Epoch day index of a timestamp; models the ISO date string
toISOString().split(T)[0] used as the aggregation partition key. -/
def jsDay (t : Int) : Int := t.fdiv msPerDay

/-- Hour-of-day of a timestamp, 0..23; models getHours() (UTC in the model). -/
def jsHour (t : Int) : Int := (t.fdiv msPerHour) % 24

/-- JavaScript Math.round: round half toward positive infinity, that is,
the floor of q + 1/2. Implemented on the numerator and denominator so
that it evaluates by kernel reduction; jsRound_eq_floor below proves the
equality with the floor form. -/
def jsRound (q : ℚ) : Int := (2 * q.num + (q.den : Int)).fdiv (2 * (q.den : Int))

/- ---------------------------------------------------------------------
src/utils/dateUtils.js
--------------------------------------------------------------------- -/

/-- From dateUtils.js isSubscriptionExpired: a falsy endDate returns true;
otherwise the comparison is (new Date(endDate) < new Date()). For a
malformed endDate the left side is NaN and the comparison is false. -/
def isSubscriptionExpired (endDate : DateInput) (now : Int) : Bool :=
  match endDate with
  | .missing => true
  | .valid t => decide (t < now)
  | .malformed => false

/-- From dateUtils.js isSubscriptionExpiringSoon: falsy endDate returns
false; otherwise (end <= warning && end >= now) where warning is now plus
gracePeriodDays days (setDate arithmetic, modelled as exact day lengths).
The source reads the clock twice; the model uses one instant. Malformed
endDate gives NaN comparisons, hence false. -/
def isSubscriptionExpiringSoon (endDate : DateInput) (gracePeriodDays : Int)
    (now : Int) : Bool :=
  match endDate with
  | .missing => false
  | .valid t => decide (t ≤ now + gracePeriodDays * msPerDay) && decide (now ≤ t)
  | .malformed => false

/-- From dateUtils.js calculateDuration: 0 for a falsy start time, otherwise
Math.floor((end - start) / 60000) minutes (floor toward negative infinity). -/
def calculateDuration (startTime : Option Int) (endTime : Int) : Int :=
  match startTime with
  | none => 0
  | some t => (endTime - t).fdiv msPerMinute

/- ---------------------------------------------------------------------
Data model (src/data JSON shapes, as used by the services)
--------------------------------------------------------------------- -/

/-- The denormalized open-visit cache stored on a customer. -/
structure CurrentVisit where
  isInside : Bool
  entryTime : Option Int
  exitTime : Option Int
  deriving DecidableEq, Repr

/-- A membership record. The type field is one of daily / monthly / annual,
the status field one of active / expired / suspended (constants.js). -/
structure Membership where
  type : String
  startDate : DateInput
  endDate : DateInput
  status : String
  services : List String
  deriving DecidableEq, Repr

/-- Personal info fields that registration validates. Further display-only
fields (address and so on) are opaque to the core and omitted. -/
structure PersonalInfo where
  firstName : String
  lastName : String
  email : String
  phone : String
  dateOfBirth : DateInput
  deriving DecidableEq, Repr

/-- A customer record. -/
structure Customer where
  customerId : String
  personalInfo : PersonalInfo
  membership : Option Membership
  currentVisit : CurrentVisit
  deriving DecidableEq, Repr

/-- A visit ledger record. visitId models the monotonic counter string. -/
structure Visit where
  visitId : Nat
  customerId : String
  entryTime : Int
  exitTime : Option Int
  duration : Option Int
  services : List String
  date : Int
  deriving DecidableEq, Repr

/-- A scan-history record (barcodeService.js scanHistory). Display fields
(customer name, random id, services) are omitted; the duplicate check reads
only customerId and timestamp. -/
structure ScanRecord where
  customerId : String
  action : String
  timestamp : Int
  deriving DecidableEq, Repr

/-- The in-memory application state held by the dataService singleton plus
the barcodeService scan history. -/
structure State where
  customers : List Customer
  visits : List Visit
  nextVisitId : Nat
  scanHistory : List ScanRecord
  deriving DecidableEq, Repr

/- ---------------------------------------------------------------------
src/services/dataService.js
--------------------------------------------------------------------- -/

/-- dataService.getCustomerById: first customer with the given id. -/
def getCustomerById (s : State) (cid : String) : Option Customer :=
  s.customers.find? (fun c => c.customerId == cid)

/-- dataService.getCurrentVisits: all open visits (exitTime === null). -/
def getCurrentVisits (s : State) : List Visit :=
  s.visits.filter (fun v => v.exitTime == none)

/-- dataService.getVisitsByDate: visits whose partition key equals date. -/
def getVisitsByDate (s : State) (date : Int) : List Visit :=
  s.visits.filter (fun v => v.date == date)

/-- dataService.updateCustomerVisitStatus: mutates the currentVisit of the
first customer with the given id (the source throws when the customer is
missing; every in-scope caller looks the customer up first, so that branch
is unreachable and is modelled as the identity). -/
def updateCustomerVisitStatus : List Customer → String → Bool → Option Int →
    Option Int → List Customer
  | [], _, _, _, _ => []
  | c :: rest, cid, ins, ent, ext =>
    if c.customerId == cid then
      { c with currentVisit := ⟨ins, ent, ext⟩ } :: rest
    else
      c :: updateCustomerVisitStatus rest cid ins ent ext

/-- The close transition of dataService.endVisit applied to one record:
sets exitTime and duration = Math.floor((end - start) / 60000). -/
def closeVisit (v : Visit) (exitTime : Int) : Visit :=
  { v with exitTime := some exitTime,
           duration := some ((exitTime - v.entryTime).fdiv msPerMinute) }

/-- The in-place mutation of dataService.endVisit on the visits array:
closes the first visit with the given id. -/
def endVisitUpd : List Visit → Nat → Int → List Visit
  | [], _, _ => []
  | v :: rest, vid, t =>
    if v.visitId == vid then closeVisit v t :: rest
    else v :: endVisitUpd rest vid t

/-- dataService.endVisit: looks the visit up, closes it, and returns it.
The source throws when the visit is missing; the throw happens before any
mutation, so the model returns none with the state unchanged and callers
map it to their catch-all error result. -/
def endVisit (s : State) (vid : Nat) (exitTime : Int) : Option Visit × State :=
  match s.visits.find? (fun v => v.visitId == vid) with
  | none => (none, s)
  | some v =>
    (some (closeVisit v exitTime), { s with visits := endVisitUpd s.visits vid exitTime })

/-- dataService.addVisit as called from the entry paths: appends a fresh
open visit, assigning the next id and the partition key of the entry time. -/
def addVisit (s : State) (cid : String) (entryTime : Int) (svcs : List String) :
    Visit × State :=
  let v : Visit :=
    { visitId := s.nextVisitId, customerId := cid, entryTime := entryTime,
      exitTime := none, duration := none, services := svcs, date := jsDay entryTime }
  (v, { s with visits := s.visits ++ [v], nextVisitId := s.nextVisitId + 1 })

/-- dataService.isCustomerIdUnique. -/
def isCustomerIdUnique (s : State) (cid : String) : Bool :=
  !(s.customers.any (fun c => c.customerId == cid))

/-- dataService.getVisitsByCustomerId. -/
def getVisitsByCustomerId (s : State) (cid : String) : List Visit :=
  s.visits.filter (fun v => v.customerId == cid)

/- ---------------------------------------------------------------------
src/utils/validators.js (the validators reachable from the in-scope flows)
--------------------------------------------------------------------- -/

/-- JavaScript String.prototype.trim: drop leading and trailing
whitespace. Structural implementation over the character list (the
built-in String.trim is byte-position based and does not reduce in the
kernel). -/
def jsTrim (s : String) : String :=
  ⟨(((s.data.dropWhile Char.isWhitespace).reverse.dropWhile Char.isWhitespace).reverse)⟩

/-- A validators.js result; the errors map of validateCustomerData is
folded into the single isValid flag. -/
structure ValidationResult where
  isValid : Bool
  message : String
  deriving DecidableEq, Repr

/-- validators.js validateCustomerId: required, length within 8..12
(VALIDATION_RULES.CUSTOMER_ID), digits only. -/
def validateCustomerId (cid : String) : ValidationResult :=
  if cid == "" then ⟨false, "Customer ID is required"⟩
  else if cid.length < 8 then ⟨false, "Customer ID must be at least 8 characters"⟩
  else if 12 < cid.length then ⟨false, "Customer ID must be no more than 12 characters"⟩
  else if !(cid.data.all Char.isDigit) then ⟨false, "Customer ID must contain only numbers"⟩
  else ⟨true, ""⟩

/-- validators.js validateBarcode: required, non-blank after trimming, then
the same validation as a customer id. -/
def validateBarcode (barcode : String) : ValidationResult :=
  if barcode == "" then ⟨false, "Barcode is required"⟩
  else
    let clean := jsTrim barcode
    if clean.length == 0 then ⟨false, "Barcode cannot be empty"⟩
    else validateCustomerId clean

/-- validators.js validateRequired: non-empty and non-blank after trim. -/
def validateRequired (value : String) : Bool :=
  !(value == "" || jsTrim value == "")

/-- The email regex of constants.js: one or more non-space non-at
characters, an at sign, one or more such characters, a dot, one or more
such characters. Equivalently: no whitespace, exactly one at sign, a
non-empty local part, and a dot strictly inside the domain part. -/
def emailMatches (s : String) : Bool :=
  match s.splitOn "@" with
  | [a, b] =>
    a != "" && a.data.all (fun c => !c.isWhitespace) &&
    b.data.all (fun c => !c.isWhitespace) &&
    (List.range b.length).any
      (fun p => decide (0 < p) && decide (p + 1 < b.length) && (b.data.getD p ' ' == '.'))
  | _ => false

/-- Consume exactly n digit characters. -/
def digitsThen : Nat → List Char → Option (List Char)
  | 0, cs => some cs
  | _ + 1, [] => none
  | n + 1, c :: cs => if c.isDigit then digitsThen n cs else none

/-- Consume one optional dash. -/
def dropDash : List Char → List Char
  | '-' :: rest => rest
  | cs => cs

/-- Tail of the phone regex: three digits, optional dash, three digits,
optional dash, four digits, end of input. -/
def phoneTail (cs : List Char) : Bool :=
  match digitsThen 3 cs with
  | none => false
  | some cs1 =>
    match digitsThen 3 (dropDash cs1) with
    | none => false
    | some cs2 =>
      match digitsThen 4 (dropDash cs2) with
      | none => false
      | some cs3 => cs3.isEmpty

/-- The phone regex of constants.js: an optional +20 country prefix with an
optional dash, then 3-3-4 digits with optional dashes. -/
def phoneMatches (s : String) : Bool :=
  match s.data with
  | '+' :: '2' :: '0' :: rest => phoneTail (dropDash rest)
  | cs => phoneTail cs

/-- validators.js validateDate: required and parseable. -/
def validateDate (d : DateInput) : Bool :=
  match d with
  | .missing => false
  | .malformed => false
  | .valid _ => true

/-- validators.js validateDateRange: both dates parseable and the end
strictly after the start (end <= start is rejected). -/
def validateDateRange (startD endD : DateInput) : Bool :=
  match startD, endD with
  | .valid a, .valid b => decide (a < b)
  | _, _ => false

/-- The registration payload passed to customerService.registerCustomer. -/
structure NewCustomerData where
  customerId : String
  personalInfo : PersonalInfo
  membership : Option Membership
  deriving DecidableEq, Repr

/-- validators.js validateCustomerData: conjunction of the field checks
(the per-field error messages are omitted; isValid is their conjunction).
The date-of-birth check runs only when the field is present and also
rejects future dates; membership dates must parse and form a range. -/
def validateCustomerData (d : NewCustomerData) (now : Int) : Bool :=
  (validateCustomerId d.customerId).isValid &&
  validateRequired d.personalInfo.firstName &&
  validateRequired d.personalInfo.lastName &&
  (d.personalInfo.email != "" && emailMatches d.personalInfo.email) &&
  (d.personalInfo.phone != "" && phoneMatches d.personalInfo.phone) &&
  (match d.personalInfo.dateOfBirth with
   | .missing => true
   | .malformed => false
   | .valid t => decide (t ≤ now)) &&
  (match d.membership with
   | none => true
   | some m =>
     validateDate m.startDate && validateDate m.endDate &&
     validateDateRange m.startDate m.endDate)

/- ---------------------------------------------------------------------
src/services/customerService.js
--------------------------------------------------------------------- -/

/-- The result shape of customerService.validateSubscription (the enriched
customer field it also carries is omitted). -/
structure SubscriptionResult where
  success : Bool
  isValid : Bool
  message : String
  warnings : List String
  deriving DecidableEq, Repr

/-- customerService.validateSubscription: looks the customer up, then
computes isValid = !isExpired && !isSuspended and the message / warnings
by the branch chain (suspended, expired, expiring soon, valid). -/
def validateSubscription (s : State) (cid : String) (now : Int) :
    SubscriptionResult :=
  match getCustomerById s cid with
  | none => ⟨false, false, "Customer not found", []⟩
  | some c =>
    match c.membership with
    | none => ⟨false, false, "No membership found", []⟩
    | some m =>
      let isExpired := isSubscriptionExpired m.endDate now
      let isExpiringSoon := isSubscriptionExpiringSoon m.endDate 7 now
      let isSuspended := m.status == "suspended"
      if isSuspended then ⟨true, false, "Membership is suspended", []⟩
      else if isExpired then ⟨true, false, "Membership has expired", []⟩
      else if isExpiringSoon then
        ⟨true, true, "Membership expires soon", ["Subscription expires within 7 days"]⟩
      else ⟨true, true, "Membership is valid", []⟩

/-- The subscriptionStatus flags computed by
customerService.enrichCustomerData (display fields daysUntilExpiry and
statusText are omitted). Note the extra conjunct status === active that
validateSubscription does not have. -/
structure SubscriptionStatus where
  isValid : Bool
  isExpired : Bool
  isExpiringSoon : Bool
  isSuspended : Bool
  deriving DecidableEq, Repr

/-- The membership part of customerService.enrichCustomerData. -/
def enrichSubscriptionStatus (membership : Option Membership) (now : Int) :
    SubscriptionStatus :=
  match membership with
  | none => ⟨false, false, false, false⟩
  | some m =>
    let isExpired := isSubscriptionExpired m.endDate now
    let isExpiringSoon := isSubscriptionExpiringSoon m.endDate 7 now
    let isSuspended := m.status == "suspended"
    { isValid := !isExpired && !isSuspended && (m.status == "active"),
      isExpired := isExpired, isExpiringSoon := isExpiringSoon,
      isSuspended := isSuspended }

/-- dataService.addCustomer as reached from registerCustomer: appends the
new customer with a fresh currentVisit. On the success path of
registerCustomer the id was validated non-empty, so the generated-id
fallback branch of the source is unreachable and omitted. -/
def addCustomer (s : State) (d : NewCustomerData) : Customer × State :=
  let c : Customer :=
    { customerId := d.customerId, personalInfo := d.personalInfo,
      membership := d.membership, currentVisit := ⟨false, none, none⟩ }
  (c, { s with customers := s.customers ++ [c] })

/-- customerService.registerCustomer: validate, check id uniqueness (the
source guards the check with truthiness of the id), then add. Returns the
success flag and the new state. -/
def registerCustomer (s : State) (d : NewCustomerData) (now : Int) :
    Bool × State :=
  if !validateCustomerData d now then (false, s)
  else if d.customerId != "" && !isCustomerIdUnique s d.customerId then (false, s)
  else (true, (addCustomer s d).2)

/- ---------------------------------------------------------------------
src/services/barcodeService.js
--------------------------------------------------------------------- -/

/-- The plain result object returned by the scan / entry / exit paths.
The type field carries the outcome taxonomy (validation_error,
customer_not_found, subscription_invalid, entry, exit, not_inside,
already_inside, no_active_visit, force_exit, system_error, or empty when
the source result has no type field). Display-only fields (customer
snapshot, visit snapshot, services echo) are omitted. -/
structure ScanResult where
  success : Bool
  type : String
  message : String
  warnings : List String
  entryTime : Option Int
  exitTime : Option Int
  duration : Option Int
  isEmergencyOverride : Bool
  overrideReason : Option String
  deriving DecidableEq, Repr

/-- An unsuccessful result carrying a message and an outcome type. -/
def errResult (msg ty : String) : ScanResult :=
  ⟨false, ty, msg, [], none, none, none, false, none⟩

/-- barcodeService.addToScanHistory: append and keep only the last 100
entries (the random display id is omitted). -/
def addToScanHistory (h : List ScanRecord) (r : ScanRecord) : List ScanRecord :=
  let h2 := h ++ [r]
  if 100 < h2.length then h2.drop (h2.length - 100) else h2

/-- barcodeService.processEntry: create the open visit, flip the
denormalized currentVisit cache to inside, record the scan. -/
def processEntry (s : State) (c : Customer) (svcs : List String) (now : Int) :
    ScanResult × State :=
  let s1 := (addVisit s c.customerId now svcs).2
  let s2 := { s1 with
    customers := updateCustomerVisitStatus s1.customers c.customerId true (some now) none }
  let s3 := { s2 with
    scanHistory := addToScanHistory s2.scanHistory ⟨c.customerId, "entry", now⟩ }
  ({ success := true, type := "entry", message := "Entry recorded successfully",
     warnings := [], entryTime := some now, exitTime := none, duration := none,
     isEmergencyOverride := false, overrideReason := none }, s3)

/-- barcodeService.processExit: guard on the cached isInside flag, locate
the open visit, close it, flip the cache to outside, record the scan. The
returned duration is computed from the cached entry time; the stored one
is recomputed by endVisit from the ledger record. When endVisit cannot
find the visit the thrown error reaches the catch-all with no mutation. -/
def processExit (s : State) (c : Customer) (now : Int) : ScanResult × State :=
  if !c.currentVisit.isInside then
    (errResult "Customer is not currently inside" "not_inside", s)
  else
    match (getCurrentVisits s).find? (fun v => v.customerId == c.customerId) with
    | none => (errResult "No active visit found" "no_active_visit", s)
    | some cv =>
      let dur := calculateDuration c.currentVisit.entryTime now
      match endVisit s cv.visitId now with
      | (none, _) => (errResult "Network connection error" "system_error", s)
      | (some _, s1) =>
        let s2 := { s1 with
          customers := updateCustomerVisitStatus s1.customers c.customerId false none (some now) }
        let s3 := { s2 with
          scanHistory := addToScanHistory s2.scanHistory ⟨c.customerId, "exit", now⟩ }
        ({ success := true, type := "exit", message := "Exit recorded successfully",
           warnings := [], entryTime := c.currentVisit.entryTime,
           exitTime := some now, duration := some dur,
           isEmergencyOverride := false, overrideReason := none }, s3)

/-- barcodeService.processBarcodeEntry: validate the barcode, resolve the
customer by the trimmed barcode (getCustomerByBarcode revalidates and
delegates to getCustomerById; the enrichment it applies adds only computed
display fields and is omitted), validate the subscription, then toggle on
the cached isInside flag. -/
def processBarcodeEntry (s : State) (barcode : String) (svcs : List String)
    (now : Int) : ScanResult × State :=
  let bv := validateBarcode barcode
  if !bv.isValid then (errResult bv.message "validation_error", s)
  else
    match getCustomerById s (jsTrim barcode) with
    | none => (errResult "Customer not found" "customer_not_found", s)
    | some c =>
      let sub := validateSubscription s c.customerId now
      if !sub.isValid then
        ({ success := false, type := "subscription_invalid", message := sub.message,
           warnings := sub.warnings, entryTime := none, exitTime := none,
           duration := none, isEmergencyOverride := false, overrideReason := none }, s)
      else if c.currentVisit.isInside then processExit s c now
      else processEntry s c svcs now

/-- barcodeService.manualEntryExit: explicit intent; rejects entry when
already inside and exit when not inside instead of toggling. -/
def manualEntryExit (s : State) (cid action : String) (svcs : List String)
    (now : Int) : ScanResult × State :=
  if cid == "" then (errResult "Customer ID is required" "", s)
  else if !(action == "entry" || action == "exit") then
    (errResult "Action must be either entry or exit" "", s)
  else
    match getCustomerById s cid with
    | none => (errResult "Customer not found" "", s)
    | some c =>
      if action == "entry" then
        if c.currentVisit.isInside then
          (errResult "Customer is already inside" "already_inside", s)
        else processEntry s c svcs now
      else
        if !c.currentVisit.isInside then
          (errResult "Customer is not currently inside" "not_inside", s)
        else processExit s c now

/-- barcodeService.checkForDuplicateEntry: true when the scan history
holds some record for the customer whose timestamp lies within the window
before now (the source computes now - scanTime < timeWindowMs, with no
lower bound on the difference). Default window 5000 ms. No caller in the
repository invokes this function. -/
def checkForDuplicateEntry (s : State) (cid : String) (timeWindowMs : Int)
    (now : Int) : Bool :=
  0 < (s.scanHistory.filter
    (fun r => r.customerId == cid && decide (now - r.timestamp < timeWindowMs))).length

/-- barcodeService.emergencyOverride: requires id and reason, skips the
subscription validation entirely, toggles on the cached isInside flag, and
always passes the service list gym, spa on the entry side. On success an
override record is added to the scan history (the source stamps it with a
fresh clock read, modelled as the same instant). -/
def emergencyOverride (s : State) (cid reason : String) (now : Int) :
    ScanResult × State :=
  if cid == "" || reason == "" then
    (errResult "Customer ID and reason are required for emergency override" "", s)
  else
    match getCustomerById s cid with
    | none => (errResult "Customer not found" "", s)
    | some c =>
      let rs :=
        if c.currentVisit.isInside then processExit s c now
        else processEntry s c ["gym", "spa"] now
      if rs.1.success then
        let s2 := { rs.2 with
          scanHistory := addToScanHistory rs.2.scanHistory
            ⟨c.customerId, "emergency_" ++ rs.1.type, now⟩ }
        ({ rs.1 with isEmergencyOverride := true, overrideReason := some reason }, s2)
      else rs

/- ---------------------------------------------------------------------
src/services/visitorsService.js
--------------------------------------------------------------------- -/

/-- dataService.getCurrentVisitors: customers whose cached flag says
inside, each paired with the first open ledger record for their id. -/
def getCurrentVisitors (s : State) : List (Customer × Option Visit) :=
  (s.customers.filter (fun c => c.currentVisit.isInside)).map
    (fun c => (c, s.visits.find? (fun v => v.customerId == c.customerId && v.exitTime == none)))

/-- visitorsService.getVisitorById: find among current visitors. The
source first sorts the enriched list by entry time; with unique customer
ids the lookup result does not depend on the order, so the sort is
omitted. -/
def getVisitorById (s : State) (cid : String) : Option (Customer × Option Visit) :=
  (getCurrentVisitors s).find? (fun p => p.1.customerId == cid)

/-- visitorsService.forceExitVisitor: administrative exit that bypasses
eligibility. Looks the visitor up among current occupants, closes the open
visit, flips the cache, and reports the reason. It does not write the scan
history (it notifies subscribers instead, which is display-only). -/
def forceExitVisitor (s : State) (cid reason : String) (now : Int) :
    ScanResult × State :=
  if cid == "" then (errResult "Customer ID is required" "", s)
  else
    match getVisitorById s cid with
    | none => (errResult "Visitor not found or not currently inside" "", s)
    | some (_, cvd) =>
      let dur := calculateDuration (cvd.map (fun v => v.entryTime)) now
      match (getCurrentVisits s).find? (fun v => v.customerId == cid) with
      | none => (errResult "No active visit found" "", s)
      | some vToEnd =>
        match endVisit s vToEnd.visitId now with
        | (none, _) => (errResult "Network connection error" "system_error", s)
        | (some _, s1) =>
          let s2 := { s1 with
            customers := updateCustomerVisitStatus s1.customers cid false none (some now) }
          ({ success := true, type := "force_exit",
             message := "Visitor successfully exited", warnings := [],
             entryTime := none, exitTime := some now, duration := some dur,
             isEmergencyOverride := false, overrideReason := some reason }, s2)

/- ---------------------------------------------------------------------
src/services/statisticsService.js and the statistics part of dataService
--------------------------------------------------------------------- -/

/-- The hourly entry count of dataService.getHourlyVisitStats: the number
of visits of the day whose entry hour is h. -/
def hourlyEntries (s : State) (date : Int) (h : Nat) : Nat :=
  ((getVisitsByDate s date).filter (fun v => jsHour v.entryTime == (h : Int))).length

/-- The hourly exit count of dataService.getHourlyVisitStats. -/
def hourlyExits (s : State) (date : Int) (h : Nat) : Nat :=
  ((getVisitsByDate s date).filter
    (fun v => match v.exitTime with
      | none => false
      | some t => jsHour t == (h : Int))).length

/-- statisticsService.calculatePeakHour: fold over the hour keys 0..23 in
ascending order keeping the first strict maximum of the entries counts;
returns (hour, entries). The display time-range string is omitted. -/
def calculatePeakHour (entries : Nat → Nat) : Nat × Nat :=
  (List.range 24).foldl
    (fun acc h => if acc.2 < entries h then (h, entries h) else acc) (0, 0)

/-- The accumulator shape of dataService.getMembershipTypeStats. -/
structure MembershipStats where
  daily : Nat
  monthly : Nat
  annual : Nat
  deriving DecidableEq, Repr

/-- dataService.getMembershipTypeStats: tally the membership type of each
visit of the day, resolved through the customer at query time; visits
whose customer is missing, has no membership, or has an unrecognized type
are not tallied. -/
def getMembershipTypeStats (s : State) (date : Int) : MembershipStats :=
  (getVisitsByDate s date).foldl
    (fun st v =>
      match getCustomerById s v.customerId with
      | none => st
      | some c =>
        match c.membership with
        | none => st
        | some m =>
          if m.type == "daily" then { st with daily := st.daily + 1 }
          else if m.type == "monthly" then { st with monthly := st.monthly + 1 }
          else if m.type == "annual" then { st with annual := st.annual + 1 }
          else st)
    ⟨0, 0, 0⟩

/-- The result shape of dataService.getVisitStatsByDate. -/
structure VisitStats where
  totalVisits : Nat
  completedVisits : Nat
  currentlyInside : Nat
  totalDuration : Int
  averageDuration : Int
  deriving DecidableEq, Repr

/-- dataService.getVisitStatsByDate. JavaScript number arithmetic is
modelled with exact rationals for the average. -/
def getVisitStatsByDate (s : State) (date : Int) : VisitStats :=
  let visits := getVisitsByDate s date
  let completed := visits.filter (fun v => v.exitTime != none)
  let totalDur := completed.foldl (fun acc v => acc + v.duration.getD 0) 0
  { totalVisits := visits.length, completedVisits := completed.length,
    currentlyInside := visits.length - completed.length,
    totalDuration := totalDur,
    averageDuration :=
      if 0 < completed.length then jsRound ((totalDur : ℚ) / (completed.length : ℚ))
      else 0 }

/-- The result shape of statisticsService.calculateDailyRevenue. The
per-type breakdown is kept as exact rationals; total and averagePerVisit
are the Math.round results the source returns. -/
structure RevenueResult where
  dailyRev : ℚ
  monthlyRev : ℚ
  annualRev : ℚ
  total : Int
  averagePerVisit : Int
  deriving DecidableEq, Repr

/-- statisticsService.calculateDailyRevenue: daily rates 50 / 1, 500 / 30,
5000 / 365; total is the rounded sum; averagePerVisit divides the
unrounded sum by the membership tally sum (0 when that sum is 0). The date
parameter of the source is unused and dropped; float arithmetic is
modelled with exact rationals. -/
def calculateDailyRevenue (ms : MembershipStats) : RevenueResult :=
  let bd : ℚ := (ms.daily : ℚ) * 50
  let bm : ℚ := (ms.monthly : ℚ) * (500 / 30)
  let ba : ℚ := (ms.annual : ℚ) * (5000 / 365)
  let total : ℚ := bd + bm + ba
  let n : Nat := ms.daily + ms.monthly + ms.annual
  { dailyRev := bd, monthlyRev := bm, annualRev := ba,
    total := jsRound total,
    averagePerVisit := if 0 < n then jsRound (total / (n : ℚ)) else 0 }

/- ---------------------------------------------------------------------
Concrete sample data used by the witnesses and counterexamples below
--------------------------------------------------------------------- -/

def pinfoW : PersonalInfo := ⟨"Jane", "Doe", "a@b.c", "0123456789", DateInput.missing⟩

/-- Active monthly membership, 100 days to the end date. -/
def mActiveW : Membership :=
  ⟨"monthly", DateInput.valid 0, DateInput.valid (100 * msPerDay), "active", ["gym"]⟩

/-- Membership whose status field says expired although its end date lies
100 days in the future and it is not suspended. -/
def mStatusExpiredW : Membership :=
  ⟨"monthly", DateInput.valid 0, DateInput.valid (100 * msPerDay), "expired", ["gym"]⟩

/-- Active membership ending exactly at the grace boundary (7 days). -/
def mGraceW : Membership :=
  ⟨"monthly", DateInput.valid 0, DateInput.valid (7 * msPerDay), "active", ["gym"]⟩

/-- Active daily membership. -/
def mDailyW : Membership :=
  ⟨"daily", DateInput.valid 0, DateInput.valid (100 * msPerDay), "active", ["gym"]⟩

def cInsideW : Customer := ⟨"12345678", pinfoW, some mActiveW, ⟨true, some 1000, none⟩⟩
def cOutsideW : Customer := ⟨"87654321", pinfoW, some mActiveW, ⟨false, none, none⟩⟩
def cStatusExpiredW : Customer := ⟨"12345678", pinfoW, some mStatusExpiredW, ⟨false, none, none⟩⟩
def cGraceW : Customer := ⟨"12345678", pinfoW, some mGraceW, ⟨false, none, none⟩⟩
def cDailyW : Customer := ⟨"12345678", pinfoW, some mDailyW, ⟨false, none, none⟩⟩
def cActiveOutW : Customer := ⟨"12345678", pinfoW, some mActiveW, ⟨false, none, none⟩⟩

def vOpenW : Visit := ⟨1, "12345678", 1000, none, none, ["gym"], 0⟩
def vClosedW : Visit := ⟨2, "87654321", 500, some 900, some 0, ["spa"], 0⟩

/-- An open visit one minute before midnight of epoch day 0. -/
def vMidnightW : Visit := ⟨1, "12345678", 86340000, none, none, ["gym"], 0⟩

def vDailyW : Visit := ⟨1, "12345678", 1000, some 2000, some 0, ["gym"], 5⟩

/-- A visit whose customer id resolves to no registered customer. -/
def vOrphanW : Visit := ⟨2, "99999999", 1500, some 2500, some 0, ["gym"], 5⟩

/-- A visit customer id resolves at query time to a registered customer
whose membership carries one of the three recognized types. Specification
side-condition used to relate the membership tally to the visit count. -/
def resolvesToKnownType (s : State) (cid : String) : Bool :=
  match getCustomerById s cid with
  | none => false
  | some c =>
    match c.membership with
    | none => false
    | some m => m.type == "daily" || m.type == "monthly" || m.type == "annual"

/-- A small consistent state: one customer inside with one open visit, one
customer outside with one completed visit. -/
def sW : State := ⟨[cInsideW, cOutsideW], [vOpenW, vClosedW], 3, []⟩

/-- State for the status-ignored scan: the only customer has a future end
date, is not suspended, but has status expired. -/
def s2cexW : State := ⟨[cStatusExpiredW], [], 1, []⟩

/-- State for the grace boundary: end date exactly now + 7 days. -/
def sC3W : State := ⟨[cGraceW], [], 1, []⟩

/-- State for the cross-midnight duration check. -/
def sMidW : State := ⟨[], [vMidnightW], 2, []⟩

/-- State for the revenue average: two visits on day 5, one resolvable to
a daily member and one orphan. -/
def s7W : State := ⟨[cDailyW], [vDailyW, vOrphanW], 3, []⟩

/-- State where every visit of day 5 resolves to a recognized type. -/
def s7AllW : State := ⟨[cDailyW], [vDailyW], 2, []⟩

/-- State with a prior scan 1 second in the past for the only customer. -/
def s9W : State := ⟨[cActiveOutW], [], 1, [⟨"12345678", "entry", -1000⟩]⟩

/- ---------------------------------------------------------------------
The visit-ledger / currentVisit consistency invariant (spec section 3)
--------------------------------------------------------------------- -/

/-- Number of open Visit records (exitTime null) for a customer id in a
visit list. -/
def openCountL (vs : List Visit) (cid : String) : Nat :=
  vs.countP (fun v => v.exitTime == none && v.customerId == cid)

/-- Number of open Visit records for a customer id in the ledger. -/
def openCount (s : State) (cid : String) : Nat :=
  openCountL s.visits cid

/-- The inductive well-formedness invariant of the application state: the
customer ids and visit ids are unique and visit ids stay below the
counter (spec sections 3 and 4.3: ids unique for the lifetime of the
process), every open visit belongs to a registered customer, at most one
visit per customer is open at any time (spec section 3, Visit invariant),
and the central denormalization invariant: the cached isInside flag is
true iff exactly one Visit record of the customer has exitTime null. -/
def WF (s : State) : Prop :=
  (s.customers.map Customer.customerId).Nodup ∧
  (s.visits.map Visit.visitId).Nodup ∧
  (∀ v ∈ s.visits, v.visitId < s.nextVisitId) ∧
  (∀ v ∈ s.visits, v.exitTime = none → ∃ c ∈ s.customers, c.customerId = v.customerId) ∧
  (∀ c ∈ s.customers, openCount s c.customerId ≤ 1) ∧
  (∀ c ∈ s.customers, c.currentVisit.isInside = true ↔ openCount s c.customerId = 1)

instance : DecidablePred WF := fun s => by
  unfold WF
  exact inferInstance

/-- jsRound is the floor of q + 1/2 (JavaScript Math.round semantics). -/
theorem jsRound_eq_floor (q : ℚ) : jsRound q = ⌊q + 1 / 2⌋ := by
  have hd : ((q.den : ℚ)) ≠ 0 := by positivity
  have hqd : q * (q.den : ℚ) = (q.num : ℚ) := Rat.mul_den_eq_num q
  have h1 : q + 1 / 2 = ((2 * q.num + (q.den : Int) : ℤ) : ℚ) / ((2 * q.den : ℕ) : ℚ) := by
    rw [eq_div_iff (by positivity)]
    push_cast
    nlinarith [hqd]
  rw [jsRound, h1, Rat.floor_intCast_div_natCast]
  rw [Int.fdiv_eq_ediv _ (by positivity)]
  push_cast
  rfl

/-- updateCustomerVisitStatus keeps the list of customer ids. -/
theorem updateCVS_customerIds (cs : List Customer) (cid : String) (b : Bool)
    (e1 e2 : Option Int) :
    (updateCustomerVisitStatus cs cid b e1 e2).map Customer.customerId =
      cs.map Customer.customerId := by
  induction cs with
  | nil => rfl
  | cons c rest ih =>
    by_cases h : c.customerId == cid
    · simp [updateCustomerVisitStatus, h]
    · simp [updateCustomerVisitStatus, h, ih]

/-- With unique customer ids, the first-match mutation of
updateCustomerVisitStatus is a pointwise map. -/
theorem updateCVS_eq_map (cid : String) (b : Bool) (e1 e2 : Option Int) :
    ∀ (cs : List Customer), (cs.map Customer.customerId).Nodup →
      updateCustomerVisitStatus cs cid b e1 e2 =
        cs.map (fun x => if x.customerId = cid then
          { x with currentVisit := ⟨b, e1, e2⟩ } else x) := by
  intro cs
  induction cs with
  | nil => intro _; rfl
  | cons c rest ih =>
    intro hnd
    simp only [List.map_cons, List.nodup_cons] at hnd
    by_cases h : c.customerId = cid
    · have hrest : rest.map (fun x => if x.customerId = cid then
          { x with currentVisit := (⟨b, e1, e2⟩ : CurrentVisit) } else x) = rest := by
        have : ∀ x ∈ rest, (if x.customerId = cid then
            { x with currentVisit := (⟨b, e1, e2⟩ : CurrentVisit) } else x) = x := by
          intro x hx
          have hne : x.customerId ≠ cid := by
            intro hxc
            exact hnd.1 (List.mem_map.mpr ⟨x, hx, by rw [hxc, h]⟩)
          simp [hne]
        calc rest.map _ = rest.map id := List.map_congr_left this
          _ = rest := List.map_id rest
      simp only [updateCustomerVisitStatus, beq_iff_eq, if_pos h, h, hrest, List.map_cons]
      simp
    · simp only [updateCustomerVisitStatus, beq_iff_eq, if_neg h, List.map_cons,
        ih hnd.2]

/-- endVisitUpd keeps the list of visit ids. -/
theorem endVisitUpd_visitIds (vs : List Visit) (vid : Nat) (t : Int) :
    (endVisitUpd vs vid t).map Visit.visitId = vs.map Visit.visitId := by
  induction vs with
  | nil => rfl
  | cons v rest ih =>
    by_cases h : v.visitId == vid
    · simp [endVisitUpd, h, closeVisit]
    · simp [endVisitUpd, h, ih]

/-- With unique visit ids, the first-match close of endVisitUpd is a
pointwise map. -/
theorem endVisitUpd_eq_map (vid : Nat) (t : Int) :
    ∀ (vs : List Visit), (vs.map Visit.visitId).Nodup →
      endVisitUpd vs vid t =
        vs.map (fun v => if v.visitId = vid then closeVisit v t else v) := by
  intro vs
  induction vs with
  | nil => intro _; rfl
  | cons v rest ih =>
    intro hnd
    simp only [List.map_cons, List.nodup_cons] at hnd
    by_cases h : v.visitId = vid
    · have hrest : rest.map (fun x => if x.visitId = vid then closeVisit x t else x)
          = rest := by
        have : ∀ x ∈ rest, (if x.visitId = vid then closeVisit x t else x) = x := by
          intro x hx
          have hne : x.visitId ≠ vid := by
            intro hxc
            exact hnd.1 (List.mem_map.mpr ⟨x, hx, by rw [hxc, h]⟩)
          simp [hne]
        calc rest.map _ = rest.map id := List.map_congr_left this
          _ = rest := List.map_id rest
      simp only [endVisitUpd, beq_iff_eq, if_pos h, h, hrest, List.map_cons]
      simp
    · simp only [endVisitUpd, beq_iff_eq, if_neg h, List.map_cons, ih hnd.2]

/-- Members of a list with nodup customer ids are determined by their id. -/
theorem customer_eq_of_id {cs : List Customer}
    (h : (cs.map Customer.customerId).Nodup) {x y : Customer}
    (hx : x ∈ cs) (hy : y ∈ cs) (hid : x.customerId = y.customerId) : x = y :=
  List.inj_on_of_nodup_map h hx hy hid

/-- Members of a list with nodup visit ids are determined by their id. -/
theorem visit_eq_of_id {vs : List Visit}
    (h : (vs.map Visit.visitId).Nodup) {x y : Visit}
    (hx : x ∈ vs) (hy : y ∈ vs) (hid : x.visitId = y.visitId) : x = y :=
  List.inj_on_of_nodup_map h hx hy hid

theorem openCountL_append (l1 l2 : List Visit) (cid : String) :
    openCountL (l1 ++ l2) cid = openCountL l1 cid + openCountL l2 cid :=
  List.countP_append ..

theorem openCountL_singleton (v : Visit) (cid : String) (h : v.exitTime = none) :
    openCountL [v] cid = if v.customerId = cid then 1 else 0 := by
  by_cases hc : v.customerId = cid
  · simp [openCountL, List.countP_cons, h, hc]
  · simp [openCountL, List.countP_cons, h, hc]

/-- Closing one open visit removes exactly its contribution from the open
count of every customer id. -/
theorem openCountL_close (vs : List Visit) (hnd : (vs.map Visit.visitId).Nodup)
    (cv : Visit) (hmem : cv ∈ vs) (hopen : cv.exitTime = none) (t : Int)
    (cid : String) :
    openCountL (vs.map (fun v => if v.visitId = cv.visitId then closeVisit v t else v)) cid
      + (if cv.customerId = cid then 1 else 0) = openCountL vs cid := by
  classical
  have hvnd : vs.Nodup := List.Nodup.of_map _ hnd
  have hperm := List.perm_cons_erase hmem
  set p : Visit → Bool := fun v => v.exitTime == none && v.customerId == cid with hp
  set f : Visit → Visit := fun v => if v.visitId = cv.visitId then closeVisit v t else v
    with hf
  have h1 : openCountL (vs.map f) cid = vs.countP (fun v => p (f v)) := by
    rw [openCountL, List.countP_map]
    rfl
  have h2 : vs.countP (fun v => p (f v)) =
      (cv :: vs.erase cv).countP (fun v => p (f v)) := hperm.countP_eq _
  have hfcv : p (f cv) = false := by
    simp [hf, hp, closeVisit]
  have herase : ∀ x ∈ vs.erase cv, p (f x) = p x := by
    intro x hx
    have hx2 := (hvnd.mem_erase_iff).mp hx
    have hne : x.visitId ≠ cv.visitId := by
      intro hid
      exact hx2.1 (visit_eq_of_id hnd hx2.2 hmem hid)
    simp [hf, hne]
  have h3 : (vs.erase cv).countP (fun v => p (f v)) = (vs.erase cv).countP p := by
    apply List.countP_congr
    intro x hx
    rw [herase x hx]
  have h4 : vs.countP p = (cv :: vs.erase cv).countP p := hperm.countP_eq _
  have hpcv : (if p cv = true then 1 else 0) = (if cv.customerId = cid then 1 else 0) := by
    by_cases hc : cv.customerId = cid
    · simp [hp, hopen, hc]
    · simp [hp, hopen, hc]
  calc openCountL (vs.map f) cid + (if cv.customerId = cid then 1 else 0)
      = (cv :: vs.erase cv).countP (fun v => p (f v))
          + (if cv.customerId = cid then 1 else 0) := by rw [h1, h2]
    _ = (vs.erase cv).countP p + (if p cv = true then 1 else 0) := by
        rw [List.countP_cons, hfcv, hpcv, h3]; simp
    _ = (cv :: vs.erase cv).countP p := by rw [List.countP_cons]
    _ = openCountL vs cid := by rw [← h4]; rfl

/-- The state produced by the entry half of the decision engine preserves
the invariant: the scanned customer was outside (hence had no open visit),
gains exactly one open visit, and every other customer is untouched. -/
theorem WF_entry_core (s : State) (c : Customer) (svcs : List String) (now : Int)
    (hist : List ScanRecord) (hWF : WF s) (hc : c ∈ s.customers)
    (hout : c.currentVisit.isInside = false) :
    WF { customers := updateCustomerVisitStatus s.customers c.customerId true (some now) none,
         visits := s.visits ++ [(addVisit s c.customerId now svcs).1],
         nextVisitId := s.nextVisitId + 1, scanHistory := hist } := by
  obtain ⟨hndC, hndV, hbound, hopen, hle, hiff⟩ := hWF
  have hupd := updateCVS_eq_map c.customerId true (some now) none s.customers hndC
  have hfid : ∀ x : Customer,
      ((fun x => if x.customerId = c.customerId then
        { x with currentVisit := (⟨true, some now, none⟩ : CurrentVisit) } else x) x).customerId
      = x.customerId := by
    intro x
    by_cases h : x.customerId = c.customerId
    · simp [h]
    · simp [h]
  have hc0 : openCount s c.customerId = 0 := by
    have h1 := hle c hc
    have h2 := hiff c hc
    rw [hout] at h2
    have h3 : openCount s c.customerId ≠ 1 := by
      intro hq
      exact absurd (h2.mpr hq) (by simp)
    omega
  have hcount : ∀ cid', openCountL (s.visits ++ [(addVisit s c.customerId now svcs).1]) cid'
      = openCount s cid' + (if c.customerId = cid' then 1 else 0) := by
    intro cid'
    rw [openCountL_append, openCountL_singleton _ _ rfl]
    rfl
  have haddV : (addVisit s c.customerId now svcs).1 =
      ⟨s.nextVisitId, c.customerId, now, none, none, svcs, jsDay now⟩ := rfl
  unfold WF
  refine ⟨?_, ?_, ?_, ?_, ?_, ?_⟩
  · show ((updateCustomerVisitStatus s.customers c.customerId true (some now) none).map
      Customer.customerId).Nodup
    rw [updateCVS_customerIds]
    exact hndC
  · show ((s.visits ++ [_]).map Visit.visitId).Nodup
    rw [List.map_append]
    refine List.Nodup.append hndV (by simp) ?_
    intro a ha hb
    have hb2 : a = s.nextVisitId := by simpa [haddV] using hb
    obtain ⟨v, hv, rfl⟩ := List.mem_map.mp ha
    have := hbound v hv
    omega
  · intro v hv
    show v.visitId < s.nextVisitId + 1
    rcases List.mem_append.mp hv with h | h
    · have := hbound v h
      omega
    · simp only [List.mem_singleton] at h
      subst h
      rw [haddV]
      exact Nat.lt_succ_self _
  · intro v hv hvopen
    rw [hupd]
    rcases List.mem_append.mp hv with h | h
    · obtain ⟨c0, hc0', hid⟩ := hopen v h hvopen
      exact ⟨_, List.mem_map_of_mem _ hc0', by rw [hfid]; exact hid⟩
    · simp only [List.mem_singleton] at h
      subst h
      exact ⟨_, List.mem_map_of_mem _ hc, by rw [hfid]; exact rfl⟩
  · intro x hx
    rw [hupd] at hx
    obtain ⟨y, hy, rfl⟩ := List.mem_map.mp hx
    show openCountL _ _ ≤ 1
    rw [hfid, hcount]
    by_cases hy2 : y.customerId = c.customerId
    · have hyc : y = c := customer_eq_of_id hndC hy hc hy2
      subst hyc
      rw [hc0]
      simp
    · have : ¬(c.customerId = y.customerId) := fun h => hy2 h.symm
      rw [if_neg this]
      have := hle y hy
      omega
  · intro x hx
    rw [hupd] at hx
    obtain ⟨y, hy, rfl⟩ := List.mem_map.mp hx
    show _ ↔ openCountL _ _ = 1
    rw [hfid, hcount]
    by_cases hy2 : y.customerId = c.customerId
    · have hyc : y = c := customer_eq_of_id hndC hy hc hy2
      subst hyc
      rw [hc0, if_pos rfl]
      simp
    · have hne : ¬(c.customerId = y.customerId) := fun h => hy2 h.symm
      rw [if_neg hne]
      simp only [if_neg hy2]
      simpa using hiff y hy

/-- The state produced by the exit half of the decision engine (and by the
administrative force-exit) preserves the invariant: the single open visit
of the customer is closed and the cached flag is flipped to outside. -/
theorem WF_exit_core (s : State) (c : Customer) (now : Int) (hist : List ScanRecord)
    (hWF : WF s) (hc : c ∈ s.customers) (cv : Visit) (hcv : cv ∈ s.visits)
    (hcvopen : cv.exitTime = none) (hcvcid : cv.customerId = c.customerId) :
    WF { customers := updateCustomerVisitStatus s.customers c.customerId false none (some now),
         visits := endVisitUpd s.visits cv.visitId now,
         nextVisitId := s.nextVisitId, scanHistory := hist } := by
  obtain ⟨hndC, hndV, hbound, hopen, hle, hiff⟩ := hWF
  have hupd := updateCVS_eq_map c.customerId false none (some now) s.customers hndC
  have hclose := endVisitUpd_eq_map cv.visitId now s.visits hndV
  have hfid : ∀ x : Customer,
      ((fun x => if x.customerId = c.customerId then
        { x with currentVisit := (⟨false, none, some now⟩ : CurrentVisit) } else x) x).customerId
      = x.customerId := by
    intro x
    by_cases h : x.customerId = c.customerId
    · simp [h]
    · simp [h]
  have hgid : ∀ w : Visit,
      ((fun v => if v.visitId = cv.visitId then closeVisit v now else v) w).visitId
      = w.visitId := by
    intro w
    by_cases h : w.visitId = cv.visitId
    · simp [h, closeVisit]
    · simp [h]
  have hcnt : ∀ cid', openCountL (endVisitUpd s.visits cv.visitId now) cid'
      + (if cv.customerId = cid' then 1 else 0) = openCountL s.visits cid' := by
    intro cid'
    rw [hclose]
    exact openCountL_close s.visits hndV cv hcv hcvopen now cid'
  have hone : openCount s c.customerId = 1 := by
    have h1 : 0 < openCountL s.visits c.customerId := by
      apply List.countP_pos_iff.mpr
      exact ⟨cv, hcv, by simp [hcvopen, hcvcid]⟩
    have h2 := hle c hc
    have h3 : openCount s c.customerId = openCountL s.visits c.customerId := rfl
    omega
  unfold WF
  refine ⟨?_, ?_, ?_, ?_, ?_, ?_⟩
  · show ((updateCustomerVisitStatus s.customers c.customerId false none (some now)).map
      Customer.customerId).Nodup
    rw [updateCVS_customerIds]
    exact hndC
  · show ((endVisitUpd s.visits cv.visitId now).map Visit.visitId).Nodup
    rw [endVisitUpd_visitIds]
    exact hndV
  · intro v hv
    show v.visitId < s.nextVisitId
    rw [hclose] at hv
    obtain ⟨w, hw, rfl⟩ := List.mem_map.mp hv
    rw [hgid]
    exact hbound w hw
  · intro v hv hvopen
    show ∃ c' ∈ updateCustomerVisitStatus s.customers c.customerId false none (some now),
      c'.customerId = v.customerId
    rw [hclose] at hv
    obtain ⟨w, hw, rfl⟩ := List.mem_map.mp hv
    rw [hupd]
    by_cases hwid : w.visitId = cv.visitId
    · exfalso
      simp only [if_pos hwid, closeVisit] at hvopen
      exact Option.some_ne_none _ hvopen
    · simp only [if_neg hwid] at hvopen ⊢
      obtain ⟨c0, hc0, hid⟩ := hopen w hw hvopen
      exact ⟨_, List.mem_map_of_mem _ hc0, by rw [hfid]; exact hid⟩
  · intro x hx
    rw [hupd] at hx
    obtain ⟨y, hy, rfl⟩ := List.mem_map.mp hx
    show openCountL (endVisitUpd s.visits cv.visitId now) _ ≤ 1
    rw [hfid]
    have hcy := hcnt y.customerId
    by_cases hy2 : y.customerId = c.customerId
    · rw [hy2] at hcy ⊢
      rw [if_pos hcvcid] at hcy
      have h3 : openCount s c.customerId = openCountL s.visits c.customerId := rfl
      have h4 := hone
      omega
    · have hne : ¬(cv.customerId = y.customerId) := by
        rw [hcvcid]
        exact fun h => hy2 h.symm
      rw [if_neg hne] at hcy
      have := hle y hy
      have h3 : openCount s y.customerId = openCountL s.visits y.customerId := rfl
      omega
  · intro x hx
    rw [hupd] at hx
    obtain ⟨y, hy, rfl⟩ := List.mem_map.mp hx
    show _ ↔ openCountL (endVisitUpd s.visits cv.visitId now) _ = 1
    rw [hfid]
    have hcy := hcnt y.customerId
    by_cases hy2 : y.customerId = c.customerId
    · have hyc : y = c := customer_eq_of_id hndC hy hc hy2
      subst hyc
      rw [if_pos (by rw [hcvcid])] at hcy
      have hz : openCountL (endVisitUpd s.visits cv.visitId now) y.customerId = 0 := by
        have : openCount s y.customerId = 1 := hone
        have h3 : openCount s y.customerId = openCountL s.visits y.customerId := rfl
        omega
      rw [hz]
      simp [if_pos rfl]
    · have hne : ¬(cv.customerId = y.customerId) := by
        rw [hcvcid]
        exact fun h => hy2 h.symm
      rw [if_neg hne] at hcy
      have hz : openCountL (endVisitUpd s.visits cv.visitId now) y.customerId
          = openCountL s.visits y.customerId := by omega
      rw [hz]
      simp only [if_neg hy2]
      simpa using hiff y hy

/-- A successful lookup returns a member with the looked-up id. -/
theorem getCustomerById_mem {s : State} {cid : String} {c : Customer}
    (h : getCustomerById s cid = some c) : c ∈ s.customers :=
  List.mem_of_find?_eq_some h

theorem getCustomerById_id {s : State} {cid : String} {c : Customer}
    (h : getCustomerById s cid = some c) : c.customerId = cid := by
  have := List.find?_some h
  simpa using this

/-- The open-visit lookup of the exit paths returns an open ledger record
of the customer. -/
theorem currentVisit_find {s : State} {cid : String} {cv : Visit}
    (h : (getCurrentVisits s).find? (fun v => v.customerId == cid) = some cv) :
    cv ∈ s.visits ∧ cv.exitTime = none ∧ cv.customerId = cid := by
  have hmem := List.mem_of_find?_eq_some h
  have hp := List.find?_some h
  rw [getCurrentVisits] at hmem
  have hmem2 := List.mem_filter.mp hmem
  refine ⟨hmem2.1, ?_, ?_⟩
  · simpa using hmem2.2
  · simpa using hp

/-- endVisit on the id of a ledger member takes the close branch. -/
theorem endVisit_of_mem {s : State} {cv : Visit} (hcv : cv ∈ s.visits) (t : Int) :
    ∃ w, endVisit s cv.visitId t =
      (some (closeVisit w t), { s with visits := endVisitUpd s.visits cv.visitId t }) := by
  unfold endVisit
  cases hfind : s.visits.find? (fun v => v.visitId == cv.visitId) with
  | none =>
    exfalso
    have := List.find?_eq_none.mp hfind cv hcv
    simp at this
  | some w => exact ⟨w, rfl⟩

/-- The invariant is insensitive to the scan history. -/
theorem WF_scanHistory (s : State) (h : List ScanRecord) (hW : WF s) :
    WF { s with scanHistory := h } := by
  unfold WF at hW ⊢
  exact hW

/-- processEntry preserves the invariant for an outside customer. -/
theorem WF_processEntry (s : State) (c : Customer) (svcs : List String) (now : Int)
    (hWF : WF s) (hc : c ∈ s.customers) (hout : c.currentVisit.isInside = false) :
    WF (processEntry s c svcs now).2 :=
  WF_entry_core s c svcs now _ hWF hc hout

/-- processExit preserves the invariant. -/
theorem WF_processExit (s : State) (c : Customer) (now : Int)
    (hWF : WF s) (hc : c ∈ s.customers) : WF (processExit s c now).2 := by
  cases hin : c.currentVisit.isInside
  case false => simpa [processExit, hin] using hWF
  case true =>
    cases hfind : (getCurrentVisits s).find? (fun v => v.customerId == c.customerId) with
    | none => simpa [processExit, hin, hfind] using hWF
    | some cv =>
      obtain ⟨hcvmem, hcvopen, hcvcid⟩ := currentVisit_find hfind
      obtain ⟨w, hend⟩ := endVisit_of_mem hcvmem now
      have hred : (processExit s c now).2 =
          { customers := updateCustomerVisitStatus s.customers c.customerId false none (some now),
            visits := endVisitUpd s.visits cv.visitId now,
            nextVisitId := s.nextVisitId,
            scanHistory := addToScanHistory s.scanHistory ⟨c.customerId, "exit", now⟩ } := by
        simp [processExit, hin, hfind, hend]
      rw [hred]
      exact WF_exit_core s c now _ hWF hc cv hcvmem hcvopen hcvcid

/-- The toggle scan preserves the invariant. -/
theorem WF_processBarcodeEntry (s : State) (b : String) (svcs : List String)
    (now : Int) (hWF : WF s) : WF (processBarcodeEntry s b svcs now).2 := by
  cases hbv : (validateBarcode b).isValid
  case false => simpa [processBarcodeEntry, hbv] using hWF
  case true =>
    cases hfind : getCustomerById s (jsTrim b) with
    | none => simpa [processBarcodeEntry, hbv, hfind] using hWF
    | some c =>
      have hc : c ∈ s.customers := getCustomerById_mem hfind
      cases hsub : (validateSubscription s c.customerId now).isValid
      case false => simpa [processBarcodeEntry, hbv, hfind, hsub] using hWF
      case true =>
        cases hin : c.currentVisit.isInside
        case false =>
          have hred : (processBarcodeEntry s b svcs now).2 = (processEntry s c svcs now).2 := by
            simp [processBarcodeEntry, hbv, hfind, hsub, hin]
          rw [hred]
          exact WF_processEntry s c svcs now hWF hc hin
        case true =>
          have hred : (processBarcodeEntry s b svcs now).2 = (processExit s c now).2 := by
            simp [processBarcodeEntry, hbv, hfind, hsub, hin]
          rw [hred]
          exact WF_processExit s c now hWF hc

/-- The manual variant preserves the invariant. -/
theorem WF_manualEntryExit (s : State) (cid action : String) (svcs : List String)
    (now : Int) (hWF : WF s) : WF (manualEntryExit s cid action svcs now).2 := by
  cases h1 : (cid == "")
  case true => simpa [manualEntryExit, h1] using hWF
  case false =>
    cases h2 : (action == "entry" || action == "exit")
    case false => simpa [manualEntryExit, h1, h2] using hWF
    case true =>
      cases hfind : getCustomerById s cid with
      | none => simpa [manualEntryExit, h1, h2, hfind] using hWF
      | some c =>
        have hc : c ∈ s.customers := getCustomerById_mem hfind
        cases h3 : (action == "entry")
        case true =>
          cases hin : c.currentVisit.isInside
          case true => simpa [manualEntryExit, h1, h2, h3, hfind, hin] using hWF
          case false =>
            have hred : (manualEntryExit s cid action svcs now).2 =
                (processEntry s c svcs now).2 := by
              simp [manualEntryExit, h1, h2, h3, hfind, hin]
            rw [hred]
            exact WF_processEntry s c svcs now hWF hc hin
        case false =>
          have h4 : action = "exit" := by
            rcases Bool.or_eq_true .. |>.mp h2 with ha | hb
            · rw [ha] at h3; cases h3
            · simpa using hb
          cases hin : c.currentVisit.isInside
          case false => simpa [manualEntryExit, h1, h2, h3, h4, hfind, hin] using hWF
          case true =>
            have hred : (manualEntryExit s cid action svcs now).2 =
                (processExit s c now).2 := by
              simp [manualEntryExit, h1, h2, h3, h4, hfind, hin]
            rw [hred]
            exact WF_processExit s c now hWF hc

/-- The emergency override preserves the invariant. -/
theorem WF_emergencyOverride (s : State) (cid reason : String) (now : Int)
    (hWF : WF s) : WF (emergencyOverride s cid reason now).2 := by
  cases h1 : (cid == "" || reason == "")
  case true => simpa [emergencyOverride, h1] using hWF
  case false =>
    cases hfind : getCustomerById s cid with
    | none => simpa [emergencyOverride, h1, hfind] using hWF
    | some c =>
      have hc : c ∈ s.customers := getCustomerById_mem hfind
      cases hin : c.currentVisit.isInside
      case false =>
        have hx := WF_processEntry s c ["gym", "spa"] now hWF hc hin
        cases hsucc : (processEntry s c ["gym", "spa"] now).1.success
        case false => simpa [emergencyOverride, h1, hfind, hin, hsucc] using hx
        case true =>
          have hred : (emergencyOverride s cid reason now).2 =
              { (processEntry s c ["gym", "spa"] now).2 with
                scanHistory := addToScanHistory (processEntry s c ["gym", "spa"] now).2.scanHistory
                  ⟨c.customerId, "emergency_" ++ (processEntry s c ["gym", "spa"] now).1.type, now⟩ } := by
            simp [emergencyOverride, h1, hfind, hin, hsucc]
          rw [hred]
          exact WF_scanHistory _ _ hx
      case true =>
        have hx := WF_processExit s c now hWF hc
        cases hsucc : (processExit s c now).1.success
        case false => simpa [emergencyOverride, h1, hfind, hin, hsucc] using hx
        case true =>
          have hred : (emergencyOverride s cid reason now).2 =
              { (processExit s c now).2 with
                scanHistory := addToScanHistory (processExit s c now).2.scanHistory
                  ⟨c.customerId, "emergency_" ++ (processExit s c now).1.type, now⟩ } := by
            simp [emergencyOverride, h1, hfind, hin, hsucc]
          rw [hred]
          exact WF_scanHistory _ _ hx

/-- The administrative force-exit preserves the invariant. -/
theorem WF_forceExitVisitor (s : State) (cid reason : String) (now : Int)
    (hWF : WF s) : WF (forceExitVisitor s cid reason now).2 := by
  cases h1 : (cid == "")
  case true => simpa [forceExitVisitor, h1] using hWF
  case false =>
    cases hv : getVisitorById s cid with
    | none => simpa [forceExitVisitor, h1, hv] using hWF
    | some p =>
      have hpmem := List.mem_of_find?_eq_some hv
      have hpid : p.1.customerId = cid := by simpa using List.find?_some hv
      rw [getCurrentVisitors] at hpmem
      obtain ⟨c0, hc0mem, hc0eq⟩ := List.mem_map.mp hpmem
      have hfst : p.1 = c0 := by rw [← hc0eq]
      have hc0' := List.mem_filter.mp hc0mem
      have hc0cust : c0 ∈ s.customers := hc0'.1
      have hc0cid : c0.customerId = cid := by rw [← hfst]; exact hpid
      cases hfind : (getCurrentVisits s).find? (fun v => v.customerId == cid) with
      | none => simpa [forceExitVisitor, h1, hv, hfind] using hWF
      | some vToEnd =>
        obtain ⟨hvm, hvopen, hvcid⟩ := currentVisit_find hfind
        obtain ⟨w, hend⟩ := endVisit_of_mem hvm now
        have hred : (forceExitVisitor s cid reason now).2 =
            { customers := updateCustomerVisitStatus s.customers cid false none (some now),
              visits := endVisitUpd s.visits vToEnd.visitId now,
              nextVisitId := s.nextVisitId,
              scanHistory := s.scanHistory } := by
          simp [forceExitVisitor, h1, hv, hfind, hend]
        rw [hred, ← hc0cid]
        exact WF_exit_core s c0 now _ hWF hc0cust vToEnd hvm hvopen
          (by rw [hvcid, hc0cid])

/-- A valid customer id is non-empty. -/
theorem validateCustomerId_ne_empty {cid : String}
    (h : (validateCustomerId cid).isValid = true) : cid ≠ "" := by
  intro he
  subst he
  simp [validateCustomerId] at h

/-- A positive uniqueness check means no registered customer has the id. -/
theorem isCustomerIdUnique_spec {s : State} {cid : String}
    (h : isCustomerIdUnique s cid = true) : ∀ c ∈ s.customers, c.customerId ≠ cid := by
  intro c hc he
  unfold isCustomerIdUnique at h
  rw [Bool.not_eq_true'] at h
  have := List.any_eq_false.mp h c hc
  simp [he] at this

/-- Registration preserves the invariant: the new customer starts outside,
its id is fresh among customers, and (by the open-visit ownership part of
the invariant) no open visit can already carry the fresh id. -/
theorem WF_registerCustomer (s : State) (d : NewCustomerData) (now : Int)
    (hWF : WF s) : WF (registerCustomer s d now).2 := by
  cases h1 : validateCustomerData d now
  case false => simpa [registerCustomer, h1] using hWF
  case true =>
    cases h2 : (d.customerId != "" && !isCustomerIdUnique s d.customerId)
    case true => simpa [registerCustomer, h1, h2] using hWF
    case false =>
      obtain ⟨hndC, hndV, hbound, hopen, hle, hiff⟩ := hWF
      have hidv : (validateCustomerId d.customerId).isValid = true := by
        have h1' := h1
        simp only [validateCustomerData, Bool.and_eq_true] at h1'
        exact h1'.1.1.1.1.1.1
      have hidne : d.customerId ≠ "" := validateCustomerId_ne_empty hidv
      have huniq : isCustomerIdUnique s d.customerId = true := by
        have hne' : (d.customerId != "") = true := bne_iff_ne.mpr hidne
        rw [hne', Bool.true_and, Bool.not_eq_false'] at h2
        exact h2
      have hfresh := isCustomerIdUnique_spec huniq
      have hz : openCount s d.customerId = 0 := by
        by_contra hnz
        have hpos : 0 < openCountL s.visits d.customerId := Nat.pos_of_ne_zero hnz
        obtain ⟨v, hvmem, hpv⟩ := List.countP_pos_iff.mp hpos
        simp only [Bool.and_eq_true, beq_iff_eq] at hpv
        obtain ⟨c0, hc0, hid⟩ := hopen v hvmem hpv.1
        exact hfresh c0 hc0 (hid.trans hpv.2)
      have hred : (registerCustomer s d now).2 =
          { s with customers := s.customers ++ [(addCustomer s d).1] } := by
        simp [registerCustomer, h1, h2, addCustomer]
      rw [hred]
      unfold WF
      refine ⟨?_, hndV, hbound, ?_, ?_, ?_⟩
      · show ((s.customers ++ [(addCustomer s d).1]).map Customer.customerId).Nodup
        rw [List.map_append]
        refine List.Nodup.append hndC (by simp) ?_
        intro a ha hb
        have hb2 : a = d.customerId := by simpa [addCustomer] using hb
        obtain ⟨c0, hc0, rfl⟩ := List.mem_map.mp ha
        exact hfresh c0 hc0 hb2
      · intro v hv hvopen
        obtain ⟨c0, hc0, hid⟩ := hopen v hv hvopen
        exact ⟨c0, List.mem_append_left _ hc0, hid⟩
      · intro x hx
        rcases List.mem_append.mp hx with h | h
        · exact hle x h
        · simp only [List.mem_singleton] at h
          subst h
          show openCountL s.visits _ ≤ 1
          have : (addCustomer s d).1.customerId = d.customerId := rfl
          rw [this]
          have h4 : openCount s d.customerId = openCountL s.visits d.customerId := rfl
          omega
      · intro x hx
        rcases List.mem_append.mp hx with h | h
        · exact hiff x h
        · simp only [List.mem_singleton] at h
          subst h
          show _ ↔ openCountL s.visits _ = 1
          have hcid : (addCustomer s d).1.customerId = d.customerId := rfl
          have hins : (addCustomer s d).1.currentVisit.isInside = false := rfl
          rw [hcid, hins]
          have h4 : openCount s d.customerId = openCountL s.visits d.customerId := rfl
          constructor
          · intro hfalse
            exact absurd hfalse (by simp)
          · intro hq
            omega

/- ---------------------------------------------------------------------
Claims
--------------------------------------------------------------------- -/

/-- C1: for every state satisfying the consistency invariant WF (which
contains the claimed equivalence: isInside is true iff exactly one Visit
of the customer has exitTime null, together with the companion data-model
invariants of spec sections 3 and 4.3 that make it inductive: unique ids,
at most one open visit per customer, open visits owned by registered
customers), the equivalence holds, and every mutating operation - the
toggle scan (entry and exit), the manual variant, the emergency override,
the administrative force-exit, and customer registration - preserves WF,
hence the equivalence, from any state in which it holds. -/
theorem C1_isInside_iff_one_open_visit_preserved (s : State) (hWF : WF s) :
    (∀ c ∈ s.customers, c.currentVisit.isInside = true ↔ openCount s c.customerId = 1) ∧
    (∀ barcode svcs now, WF (processBarcodeEntry s barcode svcs now).2) ∧
    (∀ cid action svcs now, WF (manualEntryExit s cid action svcs now).2) ∧
    (∀ cid reason now, WF (emergencyOverride s cid reason now).2) ∧
    (∀ cid reason now, WF (forceExitVisitor s cid reason now).2) ∧
    (∀ d now, WF (registerCustomer s d now).2) :=
  ⟨hWF.2.2.2.2.2,
   fun b v n => WF_processBarcodeEntry s b v n hWF,
   fun cid a v n => WF_manualEntryExit s cid a v n hWF,
   fun cid r n => WF_emergencyOverride s cid r n hWF,
   fun cid r n => WF_forceExitVisitor s cid r n hWF,
   fun d n => WF_registerCustomer s d n hWF⟩

/-- Witness for C1 at a concrete consistent two-customer state. -/
theorem C1_witness :
    WF sW ∧ WF (processBarcodeEntry sW "12345678" ["gym"] 5).2 :=
  ⟨by decide, (C1_isInside_iff_one_open_visit_preserved sW (by decide)).2.1 "12345678" ["gym"] 5⟩

/-- C2 fails on the code: a membership with a future end date, not
suspended, but with status expired (not active) passes the subscription
validation of the scan path with isValid true, and the scan is processed
as a normal entry instead of being rejected as subscription_invalid. -/
theorem C2_counterexample :
    isSubscriptionExpired mStatusExpiredW.endDate 0 = false ∧
    mStatusExpiredW.status ≠ "suspended" ∧
    mStatusExpiredW.status ≠ "active" ∧
    (validateSubscription s2cexW "12345678" 0).isValid = true ∧
    (processBarcodeEntry s2cexW "12345678" ["gym"] 0).1.type = "entry" := by
  decide

/-- C2 amended: the scan-path validateSubscription computes
isValid = !isExpired && !isSuspended with no status check; only the
display enrichment of enrichCustomerData conjoins status == active. -/
theorem C2_scan_isValid_ignores_status (s : State) (cid : String) (now : Int)
    (c : Customer) (m : Membership) (hfind : getCustomerById s cid = some c)
    (hm : c.membership = some m) :
    (validateSubscription s cid now).isValid =
      (!isSubscriptionExpired m.endDate now && !(m.status == "suspended")) ∧
    (enrichSubscriptionStatus (some m) now).isValid =
      (!isSubscriptionExpired m.endDate now && !(m.status == "suspended") &&
        (m.status == "active")) := by
  constructor
  · cases hsus : (m.status == "suspended") <;>
      cases hexp : isSubscriptionExpired m.endDate now <;>
        cases hsoon : isSubscriptionExpiringSoon m.endDate 7 now <;>
          simp [validateSubscription, hfind, hm, hsus, hexp, hsoon]
  · simp [enrichSubscriptionStatus]

/-- Witness for C2 at the concrete status-expired state. -/
theorem C2_witness :
    (validateSubscription s2cexW "12345678" 0).isValid =
      (!isSubscriptionExpired mStatusExpiredW.endDate 0 &&
        !(mStatusExpiredW.status == "suspended")) ∧
    (enrichSubscriptionStatus (some mStatusExpiredW) 0).isValid =
      (!isSubscriptionExpired mStatusExpiredW.endDate 0 &&
        !(mStatusExpiredW.status == "suspended") &&
        (mStatusExpiredW.status == "active")) :=
  C2_scan_isValid_ignores_status s2cexW "12345678" 0 cStatusExpiredW mStatusExpiredW
    (by decide) rfl

/-- C3 fails on the code at the first boundary: when the end date equals
now, isSubscriptionExpired compares end < now, which is false, so the
membership is not expired (the claim asserts it is). -/
theorem C3_counterexample : isSubscriptionExpired (DateInput.valid 1000) 1000 = false := by
  decide

/-- C3 amended: at endDate == now the membership is NOT yet expired
(expiry is strict in the other direction: expired iff end < now); the
grace boundary half of the claim holds: endDate == now + 7 days gives
isExpiringSoon true while the membership is not expired and the scan-path
validation still returns isValid true (when not suspended). -/
theorem C3_eligibility_boundary (now t : Int) (s : State) (cid : String)
    (c : Customer) (m : Membership) (hfind : getCustomerById s cid = some c)
    (hm : c.membership = some m)
    (hend : m.endDate = DateInput.valid (now + 7 * msPerDay))
    (hsus : m.status ≠ "suspended") :
    isSubscriptionExpired (DateInput.valid now) now = false ∧
    (isSubscriptionExpired (DateInput.valid t) now = true ↔ t < now) ∧
    isSubscriptionExpiringSoon (DateInput.valid (now + 7 * msPerDay)) 7 now = true ∧
    isSubscriptionExpired m.endDate now = false ∧
    (validateSubscription s cid now).isValid = true := by
  have h1 : isSubscriptionExpired (DateInput.valid now) now = false := by
    simp [isSubscriptionExpired]
  have h3 : isSubscriptionExpiringSoon (DateInput.valid (now + 7 * msPerDay)) 7 now = true := by
    simp only [isSubscriptionExpiringSoon, Bool.and_eq_true, decide_eq_true_eq, msPerDay]
    omega
  have h4 : isSubscriptionExpired m.endDate now = false := by
    rw [hend]
    simp only [isSubscriptionExpired, decide_eq_false_iff_not, not_lt, msPerDay]
    omega
  refine ⟨h1, by simp [isSubscriptionExpired], h3, h4, ?_⟩
  have hsusb : (m.status == "suspended") = false := by simp [hsus]
  cases hsoon : isSubscriptionExpiringSoon m.endDate 7 now <;>
    simp [validateSubscription, hfind, hm, hsusb, h4, hsoon]

/-- Witness for C3 at the concrete grace-boundary state (now = 0, end
date exactly 7 days later). -/
theorem C3_witness :
    isSubscriptionExpired (DateInput.valid 0) 0 = false ∧
    (isSubscriptionExpired (DateInput.valid 0) 0 = true ↔ (0 : Int) < 0) ∧
    isSubscriptionExpiringSoon (DateInput.valid (0 + 7 * msPerDay)) 7 0 = true ∧
    isSubscriptionExpired mGraceW.endDate 0 = false ∧
    (validateSubscription sC3W "12345678" 0).isValid = true :=
  C3_eligibility_boundary 0 0 sC3W "12345678" cGraceW mGraceW (by decide) rfl
    (by decide) (by decide)

/-- C4 fails on the code for malformed (non-empty, unparseable) end
dates: these parse to an Invalid Date and the NaN comparison end < now is
false, so the membership is treated as NOT expired - the check fails open
there, not closed. -/
theorem C4_counterexample : isSubscriptionExpired DateInput.malformed 12345 = false := by
  decide

/-- C4 amended: a missing (falsy) end date is treated as expired (fail
closed), but a malformed end date is treated as not expired (fails open). -/
theorem C4_missing_closed_malformed_open (now : Int) :
    isSubscriptionExpired DateInput.missing now = true ∧
    isSubscriptionExpired DateInput.malformed now = false :=
  ⟨rfl, rfl⟩

/-- C5: closing a visit stores duration = floor((exit - entry) / 60000)
whole minutes; in particular an exit 95 minutes after entry stores 95,
with no dependence on the calendar day of either timestamp. -/
theorem C5_duration_floor_minutes (s : State) (v : Visit) (t1 : Int)
    (hv : v ∈ s.visits) (hnd : (s.visits.map Visit.visitId).Nodup) :
    (endVisit s v.visitId t1).1 = some (closeVisit v t1) ∧
    (closeVisit v t1).duration = some ((t1 - v.entryTime).fdiv msPerMinute) ∧
    (∀ t0 : Int, calculateDuration (some t0) t1 = (t1 - t0).fdiv msPerMinute) ∧
    (t1 = v.entryTime + 95 * msPerMinute → (closeVisit v t1).duration = some 95) := by
  refine ⟨?_, rfl, fun t0 => rfl, ?_⟩
  · cases hfind : s.visits.find? (fun x => x.visitId == v.visitId) with
    | none =>
      exfalso
      have := List.find?_eq_none.mp hfind v hv
      simp at this
    | some w =>
      have hwmem := List.mem_of_find?_eq_some hfind
      have hwid : w.visitId = v.visitId := by simpa using List.find?_some hfind
      have hw : w = v := visit_eq_of_id hnd hwmem hv hwid
      subst hw
      simp [endVisit, hfind]
  · intro h
    have h2 : t1 - v.entryTime = 95 * msPerMinute := by omega
    simp only [closeVisit, h2]
    decide

/-- Witness for C5: the concrete open visit one minute before midnight,
closed 95 minutes later on the next calendar day, stores duration 95. -/
theorem C5_witness :
    vMidnightW ∈ sMidW.visits ∧
    jsDay vMidnightW.entryTime ≠ jsDay (vMidnightW.entryTime + 95 * msPerMinute) ∧
    (closeVisit vMidnightW (vMidnightW.entryTime + 95 * msPerMinute)).duration = some 95 :=
  ⟨by decide, by decide,
   (C5_duration_floor_minutes sMidW vMidnightW (vMidnightW.entryTime + 95 * msPerMinute)
     (by decide) (by decide)).2.2.2 rfl⟩

/-- Fold invariant of the peak-hour scan: over hours 0..n-1 in order, the
accumulator holds the first hour attaining the running maximum. -/
theorem peakFold_spec (e : Nat → Nat) :
    ∀ n, 0 < n →
      ((List.range n).foldl (fun acc h => if acc.2 < e h then (h, e h) else acc) (0, 0)).1 < n ∧
      ((List.range n).foldl (fun acc h => if acc.2 < e h then (h, e h) else acc) (0, 0)).2 =
        e (((List.range n).foldl (fun acc h => if acc.2 < e h then (h, e h) else acc) (0, 0)).1) ∧
      (∀ h, h < n →
        e h ≤ ((List.range n).foldl (fun acc h => if acc.2 < e h then (h, e h) else acc) (0, 0)).2) ∧
      (∀ h, h < n →
        e h = ((List.range n).foldl (fun acc h => if acc.2 < e h then (h, e h) else acc) (0, 0)).2 →
        ((List.range n).foldl (fun acc h => if acc.2 < e h then (h, e h) else acc) (0, 0)).1 ≤ h) := by
  intro n
  induction n with
  | zero => intro h; exact absurd h (lt_irrefl 0)
  | succ n ih =>
    intro _
    rw [List.range_succ, List.foldl_append, List.foldl_cons, List.foldl_nil]
    by_cases hn0 : n = 0
    · subst hn0
      simp only [List.range_zero, List.foldl_nil]
      by_cases he : 0 < e 0
      · rw [if_pos he]
        refine ⟨Nat.zero_lt_one, rfl, ?_, ?_⟩
        · intro h hh
          interval_cases h
          exact le_refl _
        · intro h hh _
          exact Nat.zero_le h
      · rw [if_neg he]
        have he0 : e 0 = 0 := by omega
        refine ⟨Nat.zero_lt_one, he0.symm, ?_, ?_⟩
        · intro h hh
          interval_cases h
          omega
        · intro h hh _
          exact Nat.zero_le h
    · have hpos : 0 < n := Nat.pos_of_ne_zero hn0
      obtain ⟨ih1, ih2, ih3, ih4⟩ := ih hpos
      by_cases hlt : ((List.range n).foldl
          (fun acc h => if acc.2 < e h then (h, e h) else acc) (0, 0)).2 < e n
      · rw [if_pos hlt]
        refine ⟨Nat.lt_succ_self n, rfl, ?_, ?_⟩
        · intro h hh
          rcases Nat.lt_succ_iff_lt_or_eq.mp hh with h2 | h2
          · exact le_of_lt (lt_of_le_of_lt (ih3 h h2) hlt)
          · subst h2; exact le_refl _
        · intro h hh heq
          rcases Nat.lt_succ_iff_lt_or_eq.mp hh with h2 | h2
          · have := ih3 h h2
            omega
          · omega
      · rw [if_neg hlt]
        refine ⟨lt_trans ih1 (Nat.lt_succ_self n), ih2, ?_, ?_⟩
        · intro h hh
          rcases Nat.lt_succ_iff_lt_or_eq.mp hh with h2 | h2
          · exact ih3 h h2
          · subst h2; omega
        · intro h hh heq
          rcases Nat.lt_succ_iff_lt_or_eq.mp hh with h2 | h2
          · exact ih4 h h2 heq
          · omega

/-- C6: the reported peak hour is in 0..23, its entries count is maximal
among the hourly entry counts of the day, and on ties the lowest hour is
reported (an hour with the same count as the peak cannot be smaller). -/
theorem C6_peak_hour_max_lowest_tie (s : State) (date : Int) :
    (calculatePeakHour (hourlyEntries s date)).1 < 24 ∧
    (∀ h, h < 24 → hourlyEntries s date h ≤
      hourlyEntries s date ((calculatePeakHour (hourlyEntries s date)).1)) ∧
    (∀ h, h < 24 → hourlyEntries s date h =
      hourlyEntries s date ((calculatePeakHour (hourlyEntries s date)).1) →
      (calculatePeakHour (hourlyEntries s date)).1 ≤ h) := by
  obtain ⟨h1, h2, h3, h4⟩ := peakFold_spec (hourlyEntries s date) 24 (by norm_num)
  refine ⟨h1, ?_, ?_⟩
  · intro h hh
    have hx := h3 h hh
    rw [h2] at hx
    exact hx
  · intro h hh heq
    exact h4 h hh (heq.trans h2.symm)

/-- Witness for C6 at the concrete day: hour 9 never beats the peak. -/
theorem C6_witness :
    hourlyEntries s7W 5 9 ≤ hourlyEntries s7W 5 ((calculatePeakHour (hourlyEntries s7W 5)).1) :=
  (C6_peak_hour_max_lowest_tie s7W 5).2.1 9 (by norm_num)

/-- Folding a tally that adds exactly one on every good element adds the
list length to the tally sum. -/
theorem foldl_sum_increment {α : Type} (f : MembershipStats → α → MembershipStats)
    (good : α → Prop)
    (hf : ∀ st v, good v → (f st v).daily + (f st v).monthly + (f st v).annual
      = st.daily + st.monthly + st.annual + 1) :
    ∀ (l : List α) (st : MembershipStats), (∀ v ∈ l, good v) →
      (l.foldl f st).daily + (l.foldl f st).monthly + (l.foldl f st).annual
        = st.daily + st.monthly + st.annual + l.length := by
  intro l
  induction l with
  | nil =>
    intro st _
    simp
  | cons v rest ih =>
    intro st hres
    rw [List.foldl_cons]
    have hrest : ∀ x ∈ rest, good x := fun x hx => hres x (List.mem_cons_of_mem _ hx)
    rw [ih (f st v) hrest, hf st v (hres v (List.mem_cons_self _ _))]
    simp only [List.length_cons]
    omega

/-- C7 fails on the code: with one visit resolvable to a daily member and
one orphan visit on the same day, the code divides the revenue by the
membership tally sum (1), reporting averagePerVisit 50, while the claim
(divide by totalVisits = 2) requires round(50 / 2) = 25. -/
theorem C7_counterexample :
    (calculateDailyRevenue (getMembershipTypeStats s7W 5)).averagePerVisit = 50 ∧
    (calculateDailyRevenue (getMembershipTypeStats s7W 5)).total = 50 ∧
    (getVisitStatsByDate s7W 5).totalVisits = 2 ∧
    jsRound ((50 : ℚ) / 2) = 25 ∧
    (calculateDailyRevenue (getMembershipTypeStats s7W 5)).averagePerVisit ≠
      jsRound (((calculateDailyRevenue (getMembershipTypeStats s7W 5)).total : ℚ) /
        ((getVisitStatsByDate s7W 5).totalVisits : ℚ)) := by
  have hms : getMembershipTypeStats s7W 5 = ⟨1, 0, 0⟩ := by decide
  have htv : (getVisitStatsByDate s7W 5).totalVisits = 2 := by decide
  have havg : (calculateDailyRevenue (getMembershipTypeStats s7W 5)).averagePerVisit = 50 := by
    rw [hms]
    norm_num [calculateDailyRevenue, jsRound]
    decide
  have htot : (calculateDailyRevenue (getMembershipTypeStats s7W 5)).total = 50 := by
    rw [hms]
    norm_num [calculateDailyRevenue, jsRound]
    decide
  have hhalf : jsRound ((50 : ℚ) / 2) = 25 := by
    norm_num [jsRound]
    decide
  refine ⟨havg, htot, htv, hhalf, ?_⟩
  rw [havg, htot, htv]
  norm_num [jsRound]
  decide

/-- C7 amended: revenue.total is the rounded sum of tally times daily
rate (as claimed), but averagePerVisit divides the unrounded revenue by
the membership tally sum, not by totalVisits; the two denominators agree
exactly when every visit of the day resolves to a customer with a
recognized membership type. -/
theorem C7_revenue_average (s : State) (date : Int) :
    (calculateDailyRevenue (getMembershipTypeStats s date)).total =
      jsRound (((getMembershipTypeStats s date).daily : ℚ) * 50 +
        ((getMembershipTypeStats s date).monthly : ℚ) * (500 / 30) +
        ((getMembershipTypeStats s date).annual : ℚ) * (5000 / 365)) ∧
    (calculateDailyRevenue (getMembershipTypeStats s date)).averagePerVisit =
      (if 0 < (getMembershipTypeStats s date).daily + (getMembershipTypeStats s date).monthly
          + (getMembershipTypeStats s date).annual then
        jsRound ((((getMembershipTypeStats s date).daily : ℚ) * 50 +
          ((getMembershipTypeStats s date).monthly : ℚ) * (500 / 30) +
          ((getMembershipTypeStats s date).annual : ℚ) * (5000 / 365)) /
          (((getMembershipTypeStats s date).daily + (getMembershipTypeStats s date).monthly
            + (getMembershipTypeStats s date).annual : ℕ) : ℚ))
      else 0) ∧
    ((∀ v ∈ getVisitsByDate s date, resolvesToKnownType s v.customerId = true) →
      (getMembershipTypeStats s date).daily + (getMembershipTypeStats s date).monthly
        + (getMembershipTypeStats s date).annual = (getVisitStatsByDate s date).totalVisits) := by
  refine ⟨rfl, rfl, ?_⟩
  intro hres
  have hf : ∀ (st : MembershipStats) (v : Visit),
      resolvesToKnownType s v.customerId = true →
      ((fun st v =>
        match getCustomerById s v.customerId with
        | none => st
        | some c =>
          match c.membership with
          | none => st
          | some m =>
            if m.type == "daily" then { st with daily := st.daily + 1 }
            else if m.type == "monthly" then { st with monthly := st.monthly + 1 }
            else if m.type == "annual" then { st with annual := st.annual + 1 }
            else st : MembershipStats → Visit → MembershipStats) st v).daily +
        ((fun st v =>
        match getCustomerById s v.customerId with
        | none => st
        | some c =>
          match c.membership with
          | none => st
          | some m =>
            if m.type == "daily" then { st with daily := st.daily + 1 }
            else if m.type == "monthly" then { st with monthly := st.monthly + 1 }
            else if m.type == "annual" then { st with annual := st.annual + 1 }
            else st : MembershipStats → Visit → MembershipStats) st v).monthly +
        ((fun st v =>
        match getCustomerById s v.customerId with
        | none => st
        | some c =>
          match c.membership with
          | none => st
          | some m =>
            if m.type == "daily" then { st with daily := st.daily + 1 }
            else if m.type == "monthly" then { st with monthly := st.monthly + 1 }
            else if m.type == "annual" then { st with annual := st.annual + 1 }
            else st : MembershipStats → Visit → MembershipStats) st v).annual
        = st.daily + st.monthly + st.annual + 1 := by
    intro st v hv
    unfold resolvesToKnownType at hv
    cases hc : getCustomerById s v.customerId with
    | none =>
      simp only [hc] at hv
      exact absurd hv (by simp)
    | some c =>
      simp only [hc] at hv
      cases hm : c.membership with
      | none =>
        simp only [hm] at hv
        exact absurd hv (by simp)
      | some m =>
        simp only [hm] at hv
        simp only [hc, hm]
        rcases Bool.or_eq_true .. |>.mp hv with hd | ha
        · rcases Bool.or_eq_true .. |>.mp hd with h1 | h2
          · simp only [h1, if_true]
            omega
          · have hne : (m.type == "daily") = false := by
              have h2' : m.type = "monthly" := by simpa using h2
              simp [h2']
            simp only [hne, h2, if_true, if_false, Bool.false_eq_true]
            omega
        · have hm3 : m.type = "annual" := by simpa using ha
          have hne1 : (m.type == "daily") = false := by simp [hm3]
          have hne2 : (m.type == "monthly") = false := by simp [hm3]
          have he3 : (m.type == "annual") = true := by simp [hm3]
          simp only [hne1, hne2, he3, if_true, if_false, Bool.false_eq_true]
          omega
  have := foldl_sum_increment _ _ hf (getVisitsByDate s date) ⟨0, 0, 0⟩ hres
  calc (getMembershipTypeStats s date).daily + (getMembershipTypeStats s date).monthly
        + (getMembershipTypeStats s date).annual
      = 0 + 0 + 0 + (getVisitsByDate s date).length := this
    _ = (getVisitStatsByDate s date).totalVisits := by
        simp [getVisitStatsByDate]

/-- Witness for C7: on a day where every visit resolves, the membership
tally sum equals the visit count. -/
theorem C7_witness :
    (getMembershipTypeStats s7AllW 5).daily + (getMembershipTypeStats s7AllW 5).monthly
      + (getMembershipTypeStats s7AllW 5).annual = (getVisitStatsByDate s7AllW 5).totalVisits :=
  (C7_revenue_average s7AllW 5).2.2 (by decide)

/-- The outcome type of the exit path is one of its four literals. -/
theorem processExit_types (s : State) (c : Customer) (now : Int) :
    (processExit s c now).1.type = "not_inside" ∨
    (processExit s c now).1.type = "no_active_visit" ∨
    (processExit s c now).1.type = "system_error" ∨
    (processExit s c now).1.type = "exit" := by
  cases hin : c.currentVisit.isInside
  case false =>
    left
    simp [processExit, hin, errResult]
  case true =>
    cases hfind : (getCurrentVisits s).find? (fun v => v.customerId == c.customerId) with
    | none =>
      right; left
      simp [processExit, hin, hfind, errResult]
    | some cv =>
      cases hfe : s.visits.find? (fun v => v.visitId == cv.visitId) with
      | none =>
        right; right; left
        simp [processExit, hin, hfind, endVisit, hfe, errResult]
      | some w =>
        right; right; right
        simp [processExit, hin, hfind, endVisit, hfe]

/-- C8: a scan whose outcome is validation_error, customer_not_found or
subscription_invalid leaves the state untouched: no visit is created or
closed and no currentVisit cache changes. -/
theorem C8_error_outcomes_no_mutation (s : State) (b : String) (svcs : List String)
    (now : Int)
    (h : (processBarcodeEntry s b svcs now).1.type = "validation_error" ∨
         (processBarcodeEntry s b svcs now).1.type = "customer_not_found" ∨
         (processBarcodeEntry s b svcs now).1.type = "subscription_invalid") :
    (processBarcodeEntry s b svcs now).2 = s := by
  cases hbv : (validateBarcode b).isValid
  case false => simp [processBarcodeEntry, hbv]
  case true =>
    cases hfind : getCustomerById s (jsTrim b) with
    | none => simp [processBarcodeEntry, hbv, hfind]
    | some c =>
      cases hsub : (validateSubscription s c.customerId now).isValid
      case false => simp [processBarcodeEntry, hbv, hfind, hsub]
      case true =>
        exfalso
        cases hin : c.currentVisit.isInside
        case false =>
          have hty : (processBarcodeEntry s b svcs now).1.type = "entry" := by
            simp [processBarcodeEntry, hbv, hfind, hsub, hin, processEntry]
          rcases h with h | h | h <;> rw [hty] at h <;> simp at h
        case true =>
          have hty : (processBarcodeEntry s b svcs now).1.type = (processExit s c now).1.type := by
            simp [processBarcodeEntry, hbv, hfind, hsub, hin]
          rcases processExit_types s c now with ht | ht | ht | ht <;>
            rcases h with h | h | h <;>
              rw [hty, ht] at h <;> simp at h

/-- Witness for C8: an unknown (but well-formed) barcode yields
customer_not_found and the state is unchanged. -/
theorem C8_witness :
    (processBarcodeEntry sW "99999999" ["gym"] 0).1.type = "customer_not_found" ∧
    (processBarcodeEntry sW "99999999" ["gym"] 0).2 = sW :=
  ⟨by decide,
   C8_error_outcomes_no_mutation sW "99999999" ["gym"] 0 (Or.inr (Or.inl (by decide)))⟩

/-- C9 fails on the code: with a prior scan for the same customer one
second before, the scan outcome is byte-for-byte the outcome obtained
with an empty scan history - a plain entry with no duplicate flag of any
kind - even though checkForDuplicateEntry would have reported a duplicate
within its 5000 ms window; no caller invokes it. -/
theorem C9_counterexample :
    checkForDuplicateEntry s9W "12345678" 5000 0 = true ∧
    (processBarcodeEntry s9W "12345678" ["gym"] 0).1 =
      (processBarcodeEntry { s9W with scanHistory := [] } "12345678" ["gym"] 0).1 ∧
    (processBarcodeEntry s9W "12345678" ["gym"] 0).1.type = "entry" := by
  decide

/-- The entry result does not read the scan history. -/
theorem processEntry_result_const (s : State) (h : List ScanRecord) (c : Customer)
    (svcs : List String) (now : Int) :
    (processEntry { s with scanHistory := h } c svcs now).1 = (processEntry s c svcs now).1 :=
  rfl

/-- The exit result does not read the scan history. -/
theorem processExit_result_const (s : State) (h : List ScanRecord) (c : Customer)
    (now : Int) :
    (processExit { s with scanHistory := h } c now).1 = (processExit s c now).1 := by
  cases hin : c.currentVisit.isInside
  case false => simp [processExit, hin]
  case true =>
    cases hfind : (getCurrentVisits s).find? (fun v => v.customerId == c.customerId) with
    | none =>
      have hsame : getCurrentVisits { s with scanHistory := h } = getCurrentVisits s := rfl
      simp [processExit, hin, hsame, hfind]
    | some cv =>
      have hsame : getCurrentVisits { s with scanHistory := h } = getCurrentVisits s := rfl
      cases hfe : s.visits.find? (fun v => v.visitId == cv.visitId) with
      | none => simp [processExit, hin, hsame, hfind, endVisit, hfe]
      | some w => simp [processExit, hin, hsame, hfind, endVisit, hfe]

/-- C9 amended: the duplicate check exists with its advisory 5-second
window semantics (true iff some history record of the customer lies
within the window before now), but no scan path invokes it: the scan
outcome is a function of the customers and visits alone, identical for
every scan history, and carries no duplicate flag; the scan is always
processed as a plain entry or exit. -/
theorem C9_duplicate_check_is_dead_code (s : State) (cid : String) (w now : Int) :
    (checkForDuplicateEntry s cid w now = true ↔
      ∃ r ∈ s.scanHistory, r.customerId = cid ∧ now - r.timestamp < w) ∧
    (∀ b svcs h, (processBarcodeEntry { s with scanHistory := h } b svcs now).1 =
      (processBarcodeEntry s b svcs now).1) := by
  constructor
  · rw [checkForDuplicateEntry]
    rw [← List.countP_eq_length_filter]
    simp only [decide_eq_true_eq]
    rw [List.countP_pos_iff]
    constructor
    · rintro ⟨r, hr, hp⟩
      simp only [Bool.and_eq_true, beq_iff_eq, decide_eq_true_eq] at hp
      exact ⟨r, hr, hp.1, hp.2⟩
    · rintro ⟨r, hr, h1, h2⟩
      exact ⟨r, hr, by simp [h1, h2]⟩
  · intro b svcs h
    cases hbv : (validateBarcode b).isValid
    case false => simp [processBarcodeEntry, hbv]
    case true =>
      have hsame : getCustomerById { s with scanHistory := h } (jsTrim b) =
          getCustomerById s (jsTrim b) := rfl
      cases hfind : getCustomerById s (jsTrim b) with
      | none => simp [processBarcodeEntry, hbv, hsame, hfind]
      | some c =>
        have hsub : validateSubscription { s with scanHistory := h } c.customerId now =
            validateSubscription s c.customerId now := rfl
        cases hsubv : (validateSubscription s c.customerId now).isValid
        case false => simp [processBarcodeEntry, hbv, hsame, hfind, hsub, hsubv]
        case true =>
          cases hin : c.currentVisit.isInside
          case false =>
            have h1 : (processBarcodeEntry { s with scanHistory := h } b svcs now).1 =
                (processEntry { s with scanHistory := h } c svcs now).1 := by
              simp [processBarcodeEntry, hbv, hsame, hfind, hsub, hsubv, hin]
            have h2 : (processBarcodeEntry s b svcs now).1 =
                (processEntry s c svcs now).1 := by
              simp [processBarcodeEntry, hbv, hfind, hsubv, hin]
            rw [h1, h2]
            exact processEntry_result_const s h c svcs now
          case true =>
            have h1 : (processBarcodeEntry { s with scanHistory := h } b svcs now).1 =
                (processExit { s with scanHistory := h } c now).1 := by
              simp [processBarcodeEntry, hbv, hsame, hfind, hsub, hsubv, hin]
            have h2 : (processBarcodeEntry s b svcs now).1 =
                (processExit s c now).1 := by
              simp [processBarcodeEntry, hbv, hfind, hsubv, hin]
            rw [h1, h2]
            exact processExit_result_const s h c now

/-- C10: an emergency override for a customer who is outside always opens
the visit with services gym and spa, whatever the customer wanted - the
override function takes no services argument at all - and tags the result
as an override. -/
theorem C10_override_opens_with_both_services (s : State) (cid reason : String)
    (now : Int) (c : Customer) (hcid : cid ≠ "") (hreason : reason ≠ "")
    (hfind : getCustomerById s cid = some c) (hout : c.currentVisit.isInside = false) :
    (emergencyOverride s cid reason now).2.visits =
      s.visits ++ [(addVisit s c.customerId now ["gym", "spa"]).1] ∧
    (addVisit s c.customerId now ["gym", "spa"]).1.services = ["gym", "spa"] ∧
    (emergencyOverride s cid reason now).1.type = "entry" ∧
    (emergencyOverride s cid reason now).1.isEmergencyOverride = true := by
  have h1 : (cid == "" || reason == "") = false := by
    simp [hcid, hreason]
  have hsucc : (processEntry s c ["gym", "spa"] now).1.success = true := rfl
  refine ⟨?_, rfl, ?_, ?_⟩
  · simp [emergencyOverride, h1, hfind, hout, hsucc, processEntry, addVisit,
      updateCustomerVisitStatus]
  · simp [emergencyOverride, h1, hfind, hout, hsucc, processEntry]
  · simp [emergencyOverride, h1, hfind, hout, hsucc]

/-- Witness for C10 at a concrete outside customer. -/
theorem C10_witness :
    (emergencyOverride s2cexW "12345678" "fire" 777).2.visits =
      s2cexW.visits ++ [(addVisit s2cexW cStatusExpiredW.customerId 777 ["gym", "spa"]).1] ∧
    (addVisit s2cexW cStatusExpiredW.customerId 777 ["gym", "spa"]).1.services = ["gym", "spa"] ∧
    (emergencyOverride s2cexW "12345678" "fire" 777).1.type = "entry" ∧
    (emergencyOverride s2cexW "12345678" "fire" 777).1.isEmergencyOverride = true :=
  C10_override_opens_with_both_services s2cexW "12345678" "fire" 777 cStatusExpiredW
    (by decide) (by decide) (by decide) rfl

end Gym
